import Mathlib

/-!
Shallow embedding of the PGT-A result-normalization and record-linkage
pipeline of `pgta_report_generator.py`, together with the two rendering-side
helpers `_get_result_color` (pgta_template.py) and `_get_result_color_hex`
(pgta_docx_generator.py) and the mitochondrial-copy rendering rule.

Python strings are modelled as Lean `String`/`List Char` (ASCII); all
scanning is done over `List Char` so that every definition evaluates by
kernel reduction.  Python `dict`s are modelled as insertion-ordered
association lists with overwriting assignment, matching CPython semantics.
-/

namespace PGTA

/-! ### Python string primitives (ASCII model) -/

/-- ASCII model of `str.upper` on one character. -/
def upChar (c : Char) : Char :=
  if 97 ≤ c.toNat ∧ c.toNat ≤ 122 then Char.ofNat (c.toNat - 32) else c

/-- ASCII model of `str.lower` on one character. -/
def lowChar (c : Char) : Char :=
  if 65 ≤ c.toNat ∧ c.toNat ≤ 90 then Char.ofNat (c.toNat + 32) else c

/-- `str.upper`. -/
def upStr (s : String) : String := String.mk (s.data.map upChar)

/-- `str.lower`. -/
def lowStr (s : String) : String := String.mk (s.data.map lowChar)

/-- Does `hay` start with `pat` (exact characters)? -/
def startsW : List Char → List Char → Bool
  | _, [] => true
  | [], _ :: _ => false
  | h :: hs, n :: ns => h == n && startsW hs ns

/-- Does `hay` contain `needle` as a contiguous substring? -/
def hasSubL (needle : List Char) : List Char → Bool
  | [] => startsW [] needle
  | h :: t => startsW (h :: t) needle || hasSubL needle t

/-- Python `needle in hay` on strings. -/
def pyIn (needle hay : String) : Bool := hasSubL needle.data hay.data

/-- Python `\s` / `str.strip` whitespace class. -/
def pyWs (c : Char) : Bool :=
  c == ' ' || c == '\t' || c == '\n' || c == '\r' || c == '\x0b' || c == '\x0c'

/-- Python `str.strip()` on a character list. -/
def stripL (l : List Char) : List Char :=
  ((l.dropWhile pyWs).reverse.dropWhile pyWs).reverse

/-- Python `str.strip()`. -/
def pyStrip (s : String) : String := String.mk (stripL s.data)

/-- Numeric value of a digit run. -/
def digitsVal (l : List Char) : Nat :=
  l.foldl (fun a c => a * 10 + (c.toNat - 48)) 0

/--
Scanner for `re.search(r'[~]*(\d+)%', s)` and `re.search(r'(\d+)%', s)`:
both regexes succeed exactly at the first `%` that is immediately preceded
by a digit, and group 1 is the maximal digit run just before that `%`
(the optional leading tildes never change the captured group).
`run` carries the digit run read so far, in reverse order.
-/
def firstPctRun : List Char → List Char → Option (List Char)
  | _, [] => none
  | run, c :: rest =>
    if c == '%' then
      (if run.isEmpty then firstPctRun [] rest else some run.reverse)
    else if c.isDigit then firstPctRun (c :: run) rest
    else firstPctRun [] rest

/-- Group 1 of `re.search(r'(\d+)%', s)` as a string, when the search hits. -/
def firstPctStr (s : String) : Option String :=
  (firstPctRun [] s.data).map String.mk

/-- `int(...)` of the first percentage group, as used by the classifier. -/
def firstPct (s : String) : Option Nat :=
  (firstPctRun [] s.data).map digitsVal

/-! ### Overall Result Classifier

Embeds the result-summary / interpretation decision chain of
`parse_bulk_excel` (pgta_report_generator.py, the block starting at
`# Handle QC failures first`).  Inputs are the raw `Conclusion` cell, the
raw `Result` cell and the raw `QC` cell; `qc_status = str(...).upper()` is
applied here.  In the source the `ABNORMAL` branch computes
`abnormal_count` but assigns the same label on both of its arms. -/

def classifyRow (conclusion result qc : String) : String × String :=
  let conclusionUpper := upStr conclusion
  let resultUpper := upStr result
  let qcStatus := upStr qc
  if qcStatus == "FAIL" || pyIn "INCONCLUSIVE" resultUpper
      || pyIn "RESEQUENCING" resultUpper then
    ("Inconclusive", "NA")
  else if pyIn "LOW" resultUpper
      && (pyIn "DNA" resultUpper || pyIn "READS" resultUpper) then
    ("Low DNA concentration", "NA")
  else if pyIn "CHAOTIC" conclusionUpper || pyIn "CHAOTIC" resultUpper then
    ("Multiple chromosomal abnormalities", "Chaotic embryo")
  else if pyIn "NO COPY NUMBER ABNORMALITY" conclusionUpper
      || conclusionUpper == "EUPLOID" || resultUpper == "EUPLOID" then
    ("Normal chromosome complement", "NA")
  else if pyIn "MOSAIC" conclusionUpper || pyIn "MOSAIC" resultUpper then
    ("Mosaic chromosome complement",
      match firstPct result with
      | some p => if 50 ≤ p then "High level mosaic" else "Low level mosaic"
      | none => "Low level mosaic")
  else if pyIn "ABNORMAL" conclusionUpper || conclusionUpper == "ABNORMAL" then
    ("Multiple chromosomal abnormalities", "NA")
  else
    ("Normal chromosome complement", "NA")

/-! ### Python dict model: insertion-ordered association list -/

/-- Insertion-ordered string-keyed map, CPython `dict` style. -/
abbrev AList := List (String × String)

/-- `m[k] = v`: overwrite in place, or append a new key. -/
def alSet (m : AList) (k v : String) : AList :=
  if m.any (fun p => p.1 == k) then m.map (fun p => if p.1 == k then (k, v) else p)
  else m ++ [(k, v)]

/-- `m.get(k)`. -/
def alGet? (m : AList) (k : String) : Option String :=
  (m.find? (fun p => p.1 == k)).map (·.2)

/-- `k in m`. -/
def alHas (m : AList) (k : String) : Bool := m.any (fun p => p.1 == k)

/-- `m.update(n)`. -/
def alUpdate (m n : AList) : AList := n.foldl (fun acc p => alSet acc p.1 p.2) m

/-- Keys of `chr_statuses = dict((str(i), N) for i in range(1, 23))`. -/
def defaultChrKeys : List String :=
  ["1", "2", "3", "4", "5", "6", "7", "8", "9", "10", "11",
   "12", "13", "14", "15", "16", "17", "18", "19", "20", "21", "22"]

/-- The default per-chromosome status map: every autosome starts at `N`. -/
def defaultStatuses : AList := defaultChrKeys.map (fun k => (k, "N"))

/-! ### Notation Parser (`parse_complex_result` and its caller) -/

/-- Python `s.split(sep)` for a one-character separator. -/
def splitOn (sep : Char) : List Char → List (List Char)
  | [] => [[]]
  | c :: rest =>
    if c == sep then [] :: splitOn sep rest
    else
      match splitOn sep rest with
      | h :: t => (c :: h) :: t
      | [] => [[c]]

/-- Python `s.split(sep)` on strings. -/
def pySplit (s : String) (sep : Char) : List String :=
  (splitOn sep s.data).map String.mk

/--
The zero-width lookahead of the clause-splitting regex
`,\s*(?=(?:del|dup|mos|[+-]|Monosomy|Trisomy))` with `re.IGNORECASE`:
does the text start (case-insensitively) with one of the event keywords,
or with a sign?
-/
def keywordNext (l : List Char) : Bool :=
  startsW (l.map lowChar) "del".data || startsW (l.map lowChar) "dup".data ||
  startsW (l.map lowChar) "mos".data ||
  (match l with | c :: _ => c == '+' || c == '-' | [] => false) ||
  startsW (l.map lowChar) "monosomy".data || startsW (l.map lowChar) "trisomy".data

/--
Scanner for
`re.split(r',\s*(?=(?:del|dup|mos|[+-]|Monosomy|Trisomy))', r_str, flags=re.IGNORECASE)`.
A comma whose lookahead (past the greedily-consumed
whitespace) matches ends the current part; the comma and that whitespace
are consumed.  `skipWs` set means the scanner is inside the `\s*` run that
followed a splitting comma, so whitespace is dropped rather than kept — on
entry to that mode the lookahead has already succeeded, and no keyword
starts with whitespace, so exactly the maximal whitespace run is dropped,
as in the regex.
-/
def splitAux : Bool → List Char → List Char → List String
  | _, acc, [] => [String.mk acc.reverse]
  | skipWs, acc, c :: rest =>
    if skipWs && pyWs c then splitAux true acc rest
    else if c == ',' && keywordNext (rest.dropWhile pyWs) then
      String.mk acc.reverse :: splitAux true [] rest
    else splitAux false (c :: acc) rest

/-- Clause splitting of one raw result string. -/
def splitClauses (s : String) : List String := splitAux false [] s.data

/-- The keyword alternative `(del|dup|mos)` of the event regex, at the head. -/
def kwAt (l : List Char) : Option (String × List Char) :=
  if startsW (l.map lowChar) "del".data then some ("del", l.drop 3)
  else if startsW (l.map lowChar) "dup".data then some ("dup", l.drop 3)
  else if startsW (l.map lowChar) "mos".data then some ("mos", l.drop 3)
  else none

/--
Completion `\D*?(\d+|X|Y)` (IGNORECASE) after a matched keyword: lazily
skip characters up to the first digit (then take the maximal digit run,
greedy `\d+`) or the first `x`/`y`; fail at end of input.
-/
def findChrom : List Char → Option String
  | [] => none
  | c :: rest =>
    if c.isDigit then some (String.mk (c :: rest.takeWhile Char.isDigit))
    else if c == 'X' || c == 'x' || c == 'Y' || c == 'y' then some (String.mk [c])
    else findChrom rest

/--
`re.search(r'(del|dup|mos)\D*?(\d+|X|Y)', part, re.IGNORECASE)`: leftmost
start wins; if the keyword matches but no chromosome token follows, the
search resumes at the next position.  Returns `group(1).lower()` and
`group(2)`.
-/
def findDelDupMos : List Char → Option (String × String)
  | [] => none
  | c :: rest =>
    match kwAt (c :: rest) with
    | some (et, after) =>
      match findChrom after with
      | some ch => some (et, ch)
      | none => findDelDupMos rest
    | none => findDelDupMos rest

/-- `re.search(r'([pq]\d|mb)', part, re.IGNORECASE)` as a Bool. -/
def isSegScan : List Char → Bool
  | [] => false
  | c :: rest =>
    (((lowChar c == 'p') || (lowChar c == 'q')) &&
      (match rest with | d :: _ => d.isDigit | [] => false))
    || ((lowChar c == 'm') &&
      (match rest with | b :: _ => lowChar b == 'b' | [] => false))
    || isSegScan rest

/-- `part.replace(sign, '').strip()` of the bare-sign branch. -/
def signToken (part : String) (sign : Char) : String :=
  pyStrip (String.mk (part.data.filter (fun c => c != sign)))

/--
The loop body of `parse_complex_result` for one clause.  The bare `+`/`-`
branch tests membership in the enclosing `chr_statuses` dict, which still
holds exactly the default autosome keys when `parse_complex_result` runs.
-/
def parsePart (cm : AList × AList) (part0 : String) : AList × AList :=
  let part := pyStrip part0
  if part == "" then cm
  else
    match findDelDupMos part.data with
    | some (etype, chrom) =>
      let isSeg := isSegScan part.data
      let status :=
        if etype == "del" then (if isSeg then "SL" else "L")
        else if etype == "dup" then (if isSeg then "SG" else "G")
        else "M"
      match firstPctStr part with
      | some pct =>
        let status2 :=
          if etype == "del" then (if isSeg then "SML" else "ML")
          else if etype == "dup" then (if isSeg then "SMG" else "MG")
          else status
        (alSet cm.1 chrom status2, alSet cm.2 chrom pct)
      | none => (alSet cm.1 chrom status, cm.2)
    | none =>
      if startsW part.data ['+'] then
        let ch := signToken part '+'
        if alHas defaultStatuses ch then (alSet cm.1 ch "G", cm.2) else cm
      else if startsW part.data ['-'] then
        let ch := signToken part '-'
        if alHas defaultStatuses ch then (alSet cm.1 ch "L", cm.2) else cm
      else cm

/-- `parse_complex_result(r_str)`: the clause loop over the smart split. -/
def parse_complex_result (rStr : String) : AList × AList :=
  if rStr == "" || lowStr rStr == "nan" then ([], [])
  else (splitClauses rStr).foldl parsePart ([], [])

/--
Per-row status assembly around the parser: `chr_statuses` starts at the
default map, is updated with the parsed statuses, and the legacy dash
fallback runs only when the parse produced nothing, a dash is present and
no `del` occurs (case-insensitively); it then assigns the text before the
first dash as the status of every autosome listed after it.
-/
def bulkChrStatuses (resSum : String) : AList × AList :=
  let pm := parse_complex_result resSum
  let chrStatuses := alUpdate defaultStatuses pm.1
  if pm.1.isEmpty && pyIn "-" resSum && !(pyIn "del" (lowStr resSum)) then
    match pySplit resSum '-' with
    | p0 :: p1 :: _ =>
      ((pySplit p1 ',').foldl (fun m chs =>
        if alHas m (pyStrip chs) then alSet m (pyStrip chs) p0 else m)
        chrStatuses, pm.2)
    | _ => (chrStatuses, pm.2)
  else (chrStatuses, pm.2)

/-! ### Autosome Description Generator (`generate_autosomes_string`) -/

/-- `sort_key`: numeric labels by value, then X, then Y, then anything else. -/
def sortKeyChr (k : String) : Nat :=
  if k.data ≠ [] ∧ k.data.all Char.isDigit then digitsVal k.data
  else if upStr k == "X" then 23
  else if upStr k == "Y" then 24
  else 25

/-- Stable insertion (equal keys keep first-come order), modelling
Python's stable `sorted`. -/
def insByKey (key : String → Nat) : List String → String → List String
  | [], x => [x]
  | y :: ys, x =>
    if key y ≤ key x then y :: insByKey key ys x else x :: y :: ys

/--
`generate_autosomes_string(stats, mosaic_map)`: `Normal` when empty;
verbose single-event form for one entry; concise `"<chr> <code>"` pairs for
several, sorted by `sort_key`.  `stats[ch]` always hits because the keys
are drawn from `stats` itself (the `getD` default is never used).
-/
def generate_autosomes_string (stats mosaicMap : AList) : String :=
  if stats.isEmpty then "Normal"
  else
    let sortedChrs := (stats.map (·.1)).foldl (insByKey sortKeyChr) []
    let isMultiple := decide (1 < sortedChrs.length)
    let parts := sortedChrs.map (fun ch =>
      let st := (alGet? stats ch).getD ""
      let mosVal := (alGet? mosaicMap ch).getD ""
      if isMultiple then ch ++ " " ++ st
      else
        let base := ch ++ " chromosome, CNV status " ++ st
        if mosVal ≠ "" then base ++ ", Mosaic(%) " ++ mosVal else base)
    String.intercalate ", " parts

/-! ### Record Linkage Matcher (`parse_bulk_excel` matching loop) -/

/-- Is the character in `[A-Z0-9]`? -/
def isUpAlnum (c : Char) : Bool :=
  (65 ≤ c.toNat && c.toNat ≤ 90) || (48 ≤ c.toNat && c.toNat ≤ 57)

/-- `normalize_str` of `parse_bulk_excel`:
`re.sub(r'[^A-Z0-9]', '', str(s).upper())`. -/
def normalize_str (s : String) : String :=
  String.mk ((upStr s).data.filter isUpAlnum)

/-- One row of the `Details` roster sheet: patient name and `Sample ID`. -/
structure RosterRow where
  name : String
  sid : String
deriving DecidableEq, Repr

/-- The enhanced matching test: normalized `Sample ID` containment first,
then normalized patient-name containment. -/
def matchRow (p : RosterRow) (sample : String) : Bool :=
  let normPName := normalize_str p.name
  let normSampleId := normalize_str p.sid
  let normSName := normalize_str sample
  (normSampleId != "" && pyIn normSampleId normSName) ||
  (normPName != "" && pyIn normPName normSName)

/--
The linkage loop: each roster row independently collects every summary row
it matches, and a roster row is appended to the batch output only when its
embryo list is non-empty (`if embryos:`).
-/
def linkEmbryos (roster : List RosterRow) (samples : List String) :
    List (RosterRow × List String) :=
  (roster.map (fun p => (p, samples.filter (fun s => matchRow p s)))).filter
    (fun pe => !pe.2.isEmpty)

/-! ### Enhanced normalization of `test_bulk_extraction.py` -/

/-- The honorific list of the test script's `normalize_str`, in order. -/
def honorifics : List String :=
  ["MRS.", "MR.", "SMT.", "DR.", "MS.", "MISS.", "PROF.",
   "R.", "S.", "K.", "M.", "D.", "P.", "A.", "B.", "C.",
   "G.", "H.", "J.", "L.", "N.", "T.", "V.", "W."]

/-- Strip the first matching honorific, then strip whitespace (the loop
breaks after one removal). -/
def stripHonorific (l : List Char) : List Char :=
  match honorifics.find? (fun p => startsW l p.data) with
  | some p => stripL (l.drop p.data.length)
  | none => l

/-- `common_suffixes` of the test script. -/
def commonSuffixes : List Char :=
  ['C', 'D', 'R', 'S', 'G', 'K', 'M', 'N', 'P', 'T', 'V', 'W']

/-- The trailing-single-letter-suffix rule: token longer than 3, alphabetic
last character, non-digit before it, at least 3 characters left, and the
last character drawn from `common_suffixes`. -/
def stripLabSuffix (l : List Char) : List Char :=
  if 3 < l.length then
    match l.getLast?, l.dropLast.getLast? with
    | some last, some prev =>
      if last.isAlpha && !prev.isDigit && decide (3 ≤ l.dropLast.length)
          && commonSuffixes.contains last then
        l.dropLast
      else l
    | _, _ => l
  else l

/-- `normalize_str` of `test_bulk_extraction.py`: upper-case and strip,
drop one honorific, keep alphanumerics, strip one lab suffix. -/
def test_normalize_str (s : String) : String :=
  let s1 := stripL (upStr s).data
  let s2 := stripHonorific s1
  let s3 := s2.filter isUpAlnum
  String.mk (stripLabSuffix s3)

/-! ### Presentation Mapper: the two rendering surfaces -/

/-- Severity tag shared by both renderers. -/
inductive RColor
  | black
  | red
  | blue
deriving DecidableEq, Repr

/-- `red_keywords`, identical in both renderers. -/
def redKeywords : List String :=
  ["MONOSOMY", "TRISOMY", "SEGMENTAL GAIN", "SEGMENTAL LOSS",
   "MULTIPLE CHROMOSOMAL ABNORMALITIES", "ANEUPLOID", "CHAOTIC EMBRYO"]

/-- `blue_keywords`, identical in both renderers. -/
def blueKeywords : List String :=
  ["MOSAIC CHROMOSOME COMPLEMENT", "LOW LEVEL MOSAIC",
   "HIGH LEVEL MOSAIC", "COMPLEX MOSAIC", "MULTIPLE MOSAIC"]

/-- `_get_result_color` of pgta_template.py: an explicit euploid check
comes before the keyword rules. -/
def get_result_color (resultText interpretationText : String) : RColor :=
  let resUp := upStr resultText
  let intUp := upStr interpretationText
  if pyIn "EUPLOID" intUp && !(pyIn "ANEUPLOID" intUp) then RColor.black
  else if redKeywords.any (fun kw => pyIn kw resUp)
      || redKeywords.any (fun kw => pyIn kw intUp) then RColor.red
  else if blueKeywords.any (fun kw => pyIn kw resUp)
      || blueKeywords.any (fun kw => pyIn kw intUp) then RColor.blue
  else RColor.black

/-- `_get_result_color_hex` of pgta_docx_generator.py: keyword rules only,
`None` meaning the default black. -/
def get_result_color_hex (resultText interpretationText : String) :
    Option String :=
  let resUp := upStr resultText
  let intUp := upStr interpretationText
  if redKeywords.any (fun kw => pyIn kw resUp)
      || redKeywords.any (fun kw => pyIn kw intUp) then some "#FF0000"
  else if blueKeywords.any (fun kw => pyIn kw resUp)
      || blueKeywords.any (fun kw => pyIn kw intUp) then some "#0000FF"
  else none

/-- Reading of the DOCX hex result as a severity tag. -/
def hexTag : Option String → RColor
  | some h =>
    if h == "#FF0000" then RColor.red
    else if h == "#0000FF" then RColor.blue
    else RColor.black
  | none => RColor.black

/-! ### Mitochondrial-copy rendering rule, per surface -/

/-- `_clean(val, default)` of pgta_template.py for string inputs. -/
def pyClean (val dflt : String) : String :=
  let s := pyStrip val
  if lowStr s == "nan" then dflt else s

/-- The PDF summary table: cleaned values, then the euploid gate. -/
def renderMtcopyPdf (interp mtcopy : String) : String :=
  let interpC := pyClean interp ""
  let mt := pyClean mtcopy "NA"
  if upStr interpC != "EUPLOID" then "NA" else mt

/-- The DOCX summary table: raw values, same euploid gate. -/
def renderMtcopyDocx (interp mtcopy : String) : String :=
  if upStr interp != "EUPLOID" then "NA" else mtcopy

/-- The HTML summary preview: identical to the DOCX rule. -/
def renderMtcopyPreview (interp mtcopy : String) : String :=
  if upStr interp != "EUPLOID" then "NA" else mtcopy

/-! ## Claim theorems -/

/--
C1 (counterexample): the claim says conclusion text indicating
re-sequencing yields category Inconclusive, but the classifier checks the
`Result` cell, not the `Conclusion` cell, for those markers: a row whose
conclusion reads `Resequencing recommended` (with empty result text and a
passing QC) is classified `Normal chromosome complement`, not
`Inconclusive`.
-/
theorem overall_inconclusive_counterexample :
    (classifyRow "Resequencing recommended" "" "PASS").1 =
      "Normal chromosome complement" ∧
    (classifyRow "Resequencing recommended" "" "PASS").1 ≠ "Inconclusive" := by
  refine ⟨by decide, by decide⟩

/--
C1 (amended): the first rule of the classifier, evaluated before every
later rule, sends any row with QC flag `FAIL`, or with result text
containing `INCONCLUSIVE` or `RESEQUENCING`, to category `Inconclusive`;
in particular a QC-failed row is Inconclusive whatever its conclusion
says, so a mosaic-containing conclusion can never make it Mosaic.
-/
theorem overall_inconclusive_first_rule (conclusion result qc : String)
    (h : upStr qc = "FAIL" ∨ pyIn "INCONCLUSIVE" (upStr result) = true ∨
      pyIn "RESEQUENCING" (upStr result) = true) :
    classifyRow conclusion result qc = ("Inconclusive", "NA") := by
  unfold classifyRow
  have hb : (upStr qc == "FAIL" || pyIn "INCONCLUSIVE" (upStr result)
      || pyIn "RESEQUENCING" (upStr result)) = true := by
    rcases h with h | h | h <;> simp [h]
  simp [hb]

/--
Witness for C1: a QC-failed row whose conclusion contains a mosaic marker
is classified Inconclusive.
-/
theorem overall_inconclusive_first_rule_witness :
    upStr "FAIL" = "FAIL" ∧
    pyIn "MOSAIC" (upStr "Mosaic embryo detected") = true ∧
    classifyRow "Mosaic embryo detected" "mos(3)(~40%)" "FAIL" =
      ("Inconclusive", "NA") :=
  ⟨by decide, by decide,
    overall_inconclusive_first_rule "Mosaic embryo detected" "mos(3)(~40%)"
      "FAIL" (Or.inl (by decide))⟩

/--
C2: parsing `del(5)(p15.33q12.3)(~64.50Mb,~57%)` yields exactly one
event — chromosome `5`, status `SML`, mosaic percentage `57` — and the
comma-with-keyword-lookahead split indeed leaves the string in one clause,
never breaking the parenthesized `(...,~57%)` qualifier.
-/
theorem del5_single_event :
    splitClauses "del(5)(p15.33q12.3)(~64.50Mb,~57%)" =
      ["del(5)(p15.33q12.3)(~64.50Mb,~57%)"] ∧
    parse_complex_result "del(5)(p15.33q12.3)(~64.50Mb,~57%)" =
      ([("5", "SML")], [("5", "57")]) := by
  refine ⟨by decide, by decide⟩

/--
C3 (counterexample): three simultaneously-mosaic chromosomes do not yield
a Complex sub-level; the classifier derives the level only from the first
embedded percentage of the result text, so this row is `Low level mosaic`.
-/
theorem mosaic_complex_counterexample :
    (parse_complex_result "mos(1)(~30%),mos(2)(~40%),mos(16)(~45%)").2.length
      = 3 ∧
    (classifyRow "MOSAIC" "mos(1)(~30%),mos(2)(~40%),mos(16)(~45%)" "PASS").2
      = "Low level mosaic" ∧
    pyIn "COMPLEX"
      (upStr (classifyRow "MOSAIC" "mos(1)(~30%),mos(2)(~40%),mos(16)(~45%)"
        "PASS").2) = false := by
  refine ⟨by decide, by decide, by decide⟩

/-- Guard chain of the classifier up to and including the mosaic test:
true exactly when the mosaic branch is the one that fires. -/
def reachesMosaicBranch (conclusion result qc : String) : Bool :=
  let conclusionUpper := upStr conclusion
  let resultUpper := upStr result
  let qcStatus := upStr qc
  !(qcStatus == "FAIL" || pyIn "INCONCLUSIVE" resultUpper
      || pyIn "RESEQUENCING" resultUpper) &&
  !(pyIn "LOW" resultUpper && (pyIn "DNA" resultUpper
      || pyIn "READS" resultUpper)) &&
  !(pyIn "CHAOTIC" conclusionUpper || pyIn "CHAOTIC" resultUpper) &&
  !(pyIn "NO COPY NUMBER ABNORMALITY" conclusionUpper
      || conclusionUpper == "EUPLOID" || resultUpper == "EUPLOID") &&
  (pyIn "MOSAIC" conclusionUpper || pyIn "MOSAIC" resultUpper)

/--
C3 (amended): whenever the mosaic branch fires, the sub-level is exactly
`High level mosaic` or `Low level mosaic` — High iff the first embedded
percentage of the result text is at least 50, Low otherwise (also when no
percentage exists).  No Complex sub-level is ever produced, however many
chromosomes are simultaneously mosaic.
-/
theorem mosaic_level_from_first_percentage (conclusion result qc : String)
    (h : reachesMosaicBranch conclusion result qc = true) :
    (classifyRow conclusion result qc).1 = "Mosaic chromosome complement" ∧
    ((classifyRow conclusion result qc).2 = "High level mosaic" ∨
      (classifyRow conclusion result qc).2 = "Low level mosaic") ∧
    ((classifyRow conclusion result qc).2 = "High level mosaic" ↔
      ∃ p, firstPct result = some p ∧ 50 ≤ p) := by
  unfold reachesMosaicBranch at h
  simp only [Bool.and_eq_true, Bool.not_eq_true'] at h
  obtain ⟨⟨⟨⟨h1, h2⟩, h3⟩, h4⟩, h5⟩ := h
  unfold classifyRow
  simp only [h1, h2, h3, h4, h5, Bool.false_eq_true, if_false, if_true]
  cases hp : firstPct result with
  | none => simp
  | some p =>
    by_cases hge : 50 ≤ p
    · simp [hge]
    · simp [hge]

/--
Witness for C3: a 60% mosaic result row is graded `High level mosaic`.
-/
theorem mosaic_level_from_first_percentage_witness :
    reachesMosaicBranch "Mosaic" "mos(5)(~60%)" "PASS" = true ∧
    (classifyRow "Mosaic" "mos(5)(~60%)" "PASS").2 = "High level mosaic" :=
  ⟨by decide,
    ((mosaic_level_from_first_percentage "Mosaic" "mos(5)(~60%)" "PASS"
      (by decide)).2.2).mpr ⟨60, by decide, by decide⟩⟩

/--
C4 (counterexample): when the legacy dash fallback fires it assigns the
text to the left of the dash — not the Loss code `L` — as the status: for
`Monosomy-16` chromosome 16 ends up with status `Monosomy`.
-/
theorem legacy_dash_counterexample :
    alGet? (bulkChrStatuses "Monosomy-16").1 "16" = some "Monosomy" ∧
    ("Monosomy" : String) ≠ "L" := by
  refine ⟨by decide, by decide⟩

theorem alGet?_cons (p : String × String) (t : AList) (k : String) :
    alGet? (p :: t) k = if p.1 == k then some p.2 else alGet? t k := by
  cases hp : (p.1 == k) <;> simp [alGet?, List.find?_cons, hp]

theorem alHas_cons (p : String × String) (t : AList) (k : String) :
    alHas (p :: t) k = (p.1 == k || alHas t k) := by
  simp [alHas]

theorem alHas_overwrite (ch v k : String) :
    ∀ m : AList,
      alHas (m.map (fun q => if q.1 == ch then (ch, v) else q)) k
        = alHas m k := by
  intro m
  induction m with
  | nil => rfl
  | cons q t ih =>
    rw [List.map_cons, alHas_cons, alHas_cons, ih]
    cases hq : (q.1 == ch)
    · simp [hq]
    · have hq' : q.1 = ch := eq_of_beq hq
      simp [hq, hq']

theorem alGet?_overwrite_ne (ch v k : String) (hk : (ch == k) = false) :
    ∀ m : AList,
      alGet? (m.map (fun q => if q.1 == ch then (ch, v) else q)) k
        = alGet? m k := by
  intro m
  induction m with
  | nil => rfl
  | cons q t ih =>
    rw [List.map_cons, alGet?_cons, alGet?_cons, ih]
    cases hq : (q.1 == ch)
    · simp [hq]
    · have hq' : q.1 = ch := eq_of_beq hq
      simp [hq, hq', hk]

theorem alGet?_overwrite (ch v k : String) :
    ∀ m : AList, alHas m ch = true →
      alGet? (m.map (fun q => if q.1 == ch then (ch, v) else q)) k
        = if ch == k then some v else alGet? m k := by
  intro m
  induction m with
  | nil => intro h; cases h
  | cons q t ih =>
    intro h
    rw [List.map_cons, alGet?_cons, alGet?_cons]
    cases hq : (q.1 == ch)
    · have ht : alHas t ch = true := by
        rw [alHas_cons] at h
        simpa [hq] using h
      rw [ih ht]
      cases hqk : (q.1 == k) <;> cases hk : (ch == k) <;> simp [hqk, hk]
      · have : q.1 == ch := by
          rw [eq_of_beq hqk, ← eq_of_beq hk]
          exact beq_self_eq_true ch
        rw [hq] at this
        cases this
    · have hq' : q.1 = ch := eq_of_beq hq
      cases hk : (ch == k)
      · rw [alGet?_overwrite_ne ch v k hk t]
        simp [hq, hq', hk]
      · simp [hq, hq', hk]

theorem alGet?_alSet (m : AList) (ch v k : String) (h : alHas m ch = true) :
    alGet? (alSet m ch v) k = if ch == k then some v else alGet? m k := by
  have h' : (m.any fun p => p.1 == ch) = true := h
  unfold alSet
  rw [if_pos h']
  exact alGet?_overwrite ch v k m h

theorem alHas_alSet (m : AList) (ch v k : String) (h : alHas m ch = true) :
    alHas (alSet m ch v) k = alHas m k := by
  have h' : (m.any fun p => p.1 == ch) = true := h
  unfold alSet
  rw [if_pos h']
  exact alHas_overwrite ch v k m

theorem foldl_assign_get (p0 : String) :
    ∀ (L : List String) (m : AList) (k : String),
      alGet? (L.foldl (fun m chs =>
          if alHas m (pyStrip chs) then alSet m (pyStrip chs) p0 else m)
        m) k =
      if L.any (fun chs => pyStrip chs == k) && alHas m k then some p0
      else alGet? m k := by
  intro L
  induction L with
  | nil => intro m k; simp
  | cons chs L ih =>
    intro m k
    rw [List.foldl_cons, ih]
    cases hc : alHas m (pyStrip chs) with
    | false =>
      simp only [hc, Bool.false_eq_true, if_false]
      cases hsk : (pyStrip chs == k) with
      | false => simp [hsk]
      | true =>
        have hk : alHas m k = false := by
          rw [← eq_of_beq hsk]
          exact hc
        simp [hsk, hk]
    | true =>
      simp only [hc, if_true]
      rw [alHas_alSet m (pyStrip chs) p0 k hc,
        alGet?_alSet m (pyStrip chs) p0 k hc]
      cases hsk : (pyStrip chs == k) with
      | true =>
        have hkk : alHas m k = true := by
          rw [← eq_of_beq hsk]
          exact hc
        simp [hsk, hkk]
      | false => simp [hsk]

/--
C4 (amended): the legacy dash fallback never fires once any del/dup/mos
(or bare-sign) clause parsed — the parsed statuses pass through
untouched — and whenever it does fire (no clause parsed, a dash present,
no `del` in the string), then for every chromosome key: the keys named by
the stripped comma-separated tokens of the first right-hand dash segment
that lie in the default autosome map receive the left-hand text `p0`
verbatim as their status, and every other key keeps its default; in
particular an assigned status equals the Loss code `L` exactly when the
left-hand text is literally `L`.
-/
theorem legacy_dash_amended :
    (∀ r : String, (parse_complex_result r).1 ≠ [] →
      bulkChrStatuses r =
        (alUpdate defaultStatuses (parse_complex_result r).1,
          (parse_complex_result r).2)) ∧
    (∀ (r p0 p1 : String) (rest : List String) (ch : String),
      (parse_complex_result r).1 = [] →
      pyIn "-" r = true →
      pyIn "del" (lowStr r) = false →
      pySplit r '-' = p0 :: p1 :: rest →
      alGet? (bulkChrStatuses r).1 ch =
        (if (pySplit p1 ',').any (fun chs => pyStrip chs == ch)
            && alHas defaultStatuses ch
          then some p0 else alGet? defaultStatuses ch)) ∧
    (∀ (r p0 p1 : String) (rest : List String) (ch : String),
      (parse_complex_result r).1 = [] →
      pyIn "-" r = true →
      pyIn "del" (lowStr r) = false →
      pySplit r '-' = p0 :: p1 :: rest →
      ((pySplit p1 ',').any (fun chs => pyStrip chs == ch)
          && alHas defaultStatuses ch) = true →
      (alGet? (bulkChrStatuses r).1 ch = some "L" ↔ p0 = "L")) := by
  have hB : ∀ (r p0 p1 : String) (rest : List String) (ch : String),
      (parse_complex_result r).1 = [] →
      pyIn "-" r = true →
      pyIn "del" (lowStr r) = false →
      pySplit r '-' = p0 :: p1 :: rest →
      alGet? (bulkChrStatuses r).1 ch =
        (if (pySplit p1 ',').any (fun chs => pyStrip chs == ch)
            && alHas defaultStatuses ch
          then some p0 else alGet? defaultStatuses ch) := by
    intro r p0 p1 rest ch h1 h2 h3 h4
    unfold bulkChrStatuses
    have he : (parse_complex_result r).1.isEmpty = true := by
      rw [h1]; rfl
    have hu : alUpdate defaultStatuses (parse_complex_result r).1
        = defaultStatuses := by
      rw [h1]; rfl
    simp only [he, h2, h3, hu, Bool.not_false, Bool.and_self, if_true, h4]
    exact foldl_assign_get p0 (pySplit p1 ',') defaultStatuses ch
  refine ⟨?_, hB, ?_⟩
  · intro r h
    unfold bulkChrStatuses
    have he : (parse_complex_result r).1.isEmpty = false := by
      cases hq : (parse_complex_result r).1
      · exact absurd hq h
      · rfl
    simp [he]
  · intro r p0 p1 rest ch h1 h2 h3 h4 hcond
    rw [hB r p0 p1 rest ch h1 h2 h3 h4, if_pos hcond]
    simp

/--
Witness for C4: the string with a parsed deletion clause bypasses the
fallback, and on `Monosomy-16` the fired fallback gives chromosome 16 the
left-hand text of the dash split.
-/
theorem legacy_dash_amended_witness :
    ((parse_complex_result "del(5)").1 ≠ [] ∧
      bulkChrStatuses "del(5)" =
        (alUpdate defaultStatuses (parse_complex_result "del(5)").1,
          (parse_complex_result "del(5)").2)) ∧
    ((parse_complex_result "Monosomy-16").1 = [] ∧
      pyIn "-" "Monosomy-16" = true ∧
      pyIn "del" (lowStr "Monosomy-16") = false ∧
      pySplit "Monosomy-16" '-' = ["Monosomy", "16"] ∧
      alGet? (bulkChrStatuses "Monosomy-16").1 "16" =
        (if (pySplit "16" ',').any (fun chs => pyStrip chs == "16")
            && alHas defaultStatuses "16"
          then some "Monosomy" else alGet? defaultStatuses "16")) :=
  ⟨⟨by decide, legacy_dash_amended.1 "del(5)" (by decide)⟩,
    ⟨by decide, by decide, by decide, by decide,
      legacy_dash_amended.2.1 "Monosomy-16" "Monosomy" "16" [] "16"
        (by decide) (by decide) (by decide) (by decide)⟩⟩

/--
C5 (counterexample): one concrete batch violates all three conservation
parts of the claim at once — the sample `ANITARAJ_E1` contain-matches two
roster rows and is assigned to both (double-counted), the sample
`NOMATCH_1` matches no roster row and appears nowhere in the output, and
the roster row `ZZZ` with zero matches is silently omitted.
-/
theorem linkage_conservation_counterexample :
    linkEmbryos [⟨"ANITA", ""⟩, ⟨"ANITARAJ", ""⟩, ⟨"ZZZ", "QQ1"⟩]
      ["ANITARAJ_E1", "NOMATCH_1"] =
      [(⟨"ANITA", ""⟩, ["ANITARAJ_E1"]),
       (⟨"ANITARAJ", ""⟩, ["ANITARAJ_E1"])] := by
  decide

/--
C5 (amended): the output of the linkage loop is characterized
per roster row, with no cross-row accounting: a pair `(p, es)` is in the
output iff `p` is a roster row, `es` is exactly the full list of result
rows matching `p` (so a result row matching several roster rows is
duplicated into each of their lists), and `es` is non-empty (so zero-match
roster rows are dropped); result rows matching no roster row appear in no
output list.
-/
theorem linkage_membership_characterization (roster : List RosterRow)
    (samples : List String) (p : RosterRow) (es : List String) :
    (p, es) ∈ linkEmbryos roster samples ↔
      p ∈ roster ∧ es = samples.filter (fun s => matchRow p s) ∧ es ≠ [] := by
  unfold linkEmbryos
  rw [List.mem_filter, List.mem_map]
  constructor
  · rintro ⟨⟨a, ha, heq⟩, hne⟩
    simp only [Prod.mk.injEq] at heq
    obtain ⟨rfl, rfl⟩ := heq
    refine ⟨ha, rfl, ?_⟩
    intro hnil
    rw [hnil] at hne
    simp at hne
  · rintro ⟨hp, rfl, hne⟩
    refine ⟨⟨p, hp, rfl⟩, ?_⟩
    cases hq : samples.filter (fun s => matchRow p s)
    · exact absurd hq hne
    · simp [hq]

/--
Witness for C5: a single matching roster row receives its matching sample.
-/
theorem linkage_membership_characterization_witness :
    ((⟨"ANITA", ""⟩ : RosterRow), ["ANITARAJ_E1"]) ∈
      linkEmbryos [⟨"ANITA", ""⟩] ["ANITARAJ_E1"] :=
  (linkage_membership_characterization [⟨"ANITA", ""⟩] ["ANITARAJ_E1"]
    ⟨"ANITA", ""⟩ ["ANITARAJ_E1"]).mpr ⟨by decide, by decide, by decide⟩

/--
C6: the production record-linkage normalization (`normalize_str` inside
`parse_bulk_excel`) only upper-cases and removes non-alphanumerics — it
strips neither honorific prefixes nor trailing single-letter suffixes, so
`KAVITHAC` stays `KAVITHAC` — while the repository's own test script
`test_bulk_extraction.py` implements the claimed enhanced normalization,
under which `KAVITHAC` and `MRS. KAVITHA C` both normalize to `KAVITHA`.
-/
theorem normalize_suffix_divergence :
    normalize_str "KAVITHAC" = "KAVITHAC" ∧
    test_normalize_str "KAVITHAC" = "KAVITHA" ∧
    normalize_str "MRS. KAVITHA C" = "MRSKAVITHAC" ∧
    test_normalize_str "MRS. KAVITHA C" = "KAVITHA" := by
  refine ⟨by decide, by decide, by decide, by decide⟩

/--
C7 (counterexample): the two rendering surfaces disagree: on a result
text containing the red keyword `MONOSOMY` paired with an interpretation
containing `EUPLOID`, the PDF renderer's euploid short-circuit returns
black while the DOCX renderer, which has no such check, returns red.
-/
theorem color_drift_counterexample :
    get_result_color "MONOSOMY 16" "EUPLOID" = RColor.black ∧
    hexTag (get_result_color_hex "MONOSOMY 16" "EUPLOID") = RColor.red ∧
    RColor.black ≠ RColor.red := by
  refine ⟨by decide, by decide, by decide⟩

/--
C7 (amended): outside the PDF renderer's euploid short-circuit — that is,
whenever the interpretation does not contain `EUPLOID`, or also contains
`ANEUPLOID` — the PDF and DOCX color functions agree on every input pair,
both running the same red-then-blue-then-black keyword rules; on the
classifier's categories the shared rule sends Normal and
Inconclusive/Low-DNA to black, mosaic to blue and multiple-abnormality
rows to red.
-/
theorem color_agreement_amended :
    (∀ res itext : String,
      (pyIn "EUPLOID" (upStr itext) && !(pyIn "ANEUPLOID" (upStr itext)))
        = false →
      get_result_color res itext = hexTag (get_result_color_hex res itext)) ∧
    get_result_color "Normal chromosome complement" "NA" = RColor.black ∧
    get_result_color "Inconclusive" "NA" = RColor.black ∧
    get_result_color "Low DNA concentration" "NA" = RColor.black ∧
    get_result_color "Mosaic chromosome complement" "Low level mosaic"
      = RColor.blue ∧
    get_result_color "Multiple chromosomal abnormalities" "NA"
      = RColor.red := by
  refine ⟨?_, by decide, by decide, by decide, by decide, by decide⟩
  intro res itext h
  unfold get_result_color get_result_color_hex
  simp only [h, Bool.false_eq_true, if_false]
  cases hR : (redKeywords.any (fun kw => pyIn kw (upStr res))
      || redKeywords.any (fun kw => pyIn kw (upStr itext))) with
  | true => simp [hexTag]
  | false =>
    cases hB : (blueKeywords.any (fun kw => pyIn kw (upStr res))
        || blueKeywords.any (fun kw => pyIn kw (upStr itext))) with
    | true => simp [hexTag]
    | false => simp [hexTag]

/--
Witness for C7: a non-euploid interpretation makes both surfaces agree on
a red result.
-/
theorem color_agreement_amended_witness :
    (pyIn "EUPLOID" (upStr "NA") && !(pyIn "ANEUPLOID" (upStr "NA")))
      = false ∧
    get_result_color "MONOSOMY 16" "NA" =
      hexTag (get_result_color_hex "MONOSOMY 16" "NA") :=
  ⟨by decide, color_agreement_amended.1 "MONOSOMY 16" "NA" (by decide)⟩

/--
C8: the Autosome Description Generator renders one abnormal chromosome
verbosely — `16 chromosome, CNV status L`, with `, Mosaic(%) <pct>`
appended when a percentage exists — and several abnormal chromosomes
concisely and sorted ascending (numeric before X before Y), whatever
order the status map lists them in.
-/
theorem autosome_description_examples :
    generate_autosomes_string [("16", "L")] [] =
      "16 chromosome, CNV status L" ∧
    generate_autosomes_string [("16", "ML")] [("16", "30")] =
      "16 chromosome, CNV status ML, Mosaic(%) 30" ∧
    generate_autosomes_string
      [("21", "G"), ("1", "SG"), ("13", "SG"), ("11", "SG")] [] =
      "1 SG, 11 SG, 13 SG, 21 G" ∧
    generate_autosomes_string [("Y", "G"), ("X", "L"), ("5", "G")] [] =
      "5 G, X L, Y G" := by
  refine ⟨by decide, by decide, by decide, by decide⟩

/--
C9 (counterexample): a bulk-parsed Normal row carries interpretation
`NA`, not `Euploid`, so all three rendering surfaces force its
mitochondrial-copy value to `NA` even though the overall category is
Normal — the original value `123.4` is not preserved.
-/
theorem mtcopy_normal_counterexample :
    classifyRow "EUPLOID" "" "PASS" = ("Normal chromosome complement", "NA") ∧
    renderMtcopyPdf "NA" "123.4" = "NA" ∧
    renderMtcopyDocx "NA" "123.4" = "NA" ∧
    renderMtcopyPreview "NA" "123.4" = "NA" ∧
    ("NA" : String) ≠ "123.4" := by
  refine ⟨by decide, by decide, by decide, by decide, by decide⟩

/--
C9 (amended): on every surface the rendered mitochondrial-copy value is
forced to `NA` unless the interpretation text equals `Euploid`
case-insensitively (the PDF surface tests the cleaned interpretation);
when the gate passes, the DOCX and preview surfaces preserve the original
value and the PDF surface preserves its cleaned value.  The gate is the
interpretation text, not the overall category.
-/
theorem mtcopy_euploid_rule (interp mt : String) :
    (upStr interp ≠ "EUPLOID" →
      renderMtcopyDocx interp mt = "NA" ∧
        renderMtcopyPreview interp mt = "NA") ∧
    (upStr interp = "EUPLOID" →
      renderMtcopyDocx interp mt = mt ∧
        renderMtcopyPreview interp mt = mt) ∧
    renderMtcopyDocx interp mt = renderMtcopyPreview interp mt ∧
    (upStr (pyClean interp "") ≠ "EUPLOID" →
      renderMtcopyPdf interp mt = "NA") ∧
    (upStr (pyClean interp "") = "EUPLOID" →
      renderMtcopyPdf interp mt = pyClean mt "NA") := by
  refine ⟨?_, ?_, rfl, ?_, ?_⟩
  · intro h
    constructor <;> simp [renderMtcopyDocx, renderMtcopyPreview, h]
  · intro h
    constructor <;> simp [renderMtcopyDocx, renderMtcopyPreview, h]
  · intro h
    simp [renderMtcopyPdf, h]
  · intro h
    simp [renderMtcopyPdf, h]

/--
Witness for C9: an `Euploid` interpretation lets the DOCX surface keep
the original value.
-/
theorem mtcopy_euploid_rule_witness :
    upStr "Euploid" = "EUPLOID" ∧
    renderMtcopyDocx "Euploid" "88" = "88" :=
  ⟨by decide, ((mtcopy_euploid_rule "Euploid" "88").2.1 (by decide)).1⟩

/--
C10: when the del/dup/mos event search fails on a clause and its
sign-stripped token is not a key of the default autosome map (`1`..`22`),
neither a status entry nor a mosaic entry is recorded; in particular the
bare sex-chromosome clauses `+X` and `-Y` parse to nothing at all.
-/
theorem bare_sign_branch_rejects_nonautosomes :
    (∀ (part : String) (cm : AList × AList),
      findDelDupMos (pyStrip part).data = none →
      alHas defaultStatuses (signToken (pyStrip part) '+') = false →
      alHas defaultStatuses (signToken (pyStrip part) '-') = false →
      parsePart cm part = cm) ∧
    parse_complex_result "+X" = ([], []) ∧
    parse_complex_result "-Y" = ([], []) := by
  refine ⟨?_, by decide, by decide⟩
  intro part cm h hplus hminus
  unfold parsePart
  simp only [h, hplus, hminus, Bool.false_eq_true, if_false]
  split
  · rfl
  · split <;> first
      | rfl
      | (split <;> rfl)

/--
Witness for C10: the clause `+X` leaves the maps untouched.
-/
theorem bare_sign_branch_rejects_nonautosomes_witness :
    findDelDupMos (pyStrip "+X").data = none ∧
    parsePart ([], []) "+X" = ([], []) :=
  ⟨by decide,
    bare_sign_branch_rejects_nonautosomes.1 "+X" ([], []) (by decide)
      (by decide) (by decide)⟩

end PGTA
